import Mathlib

/-!
Verification development for the DREAM Monte-Carlo simulation harness
(`run_simulator.py`).  The definitions below are a shallow embedding of the
orchestration code: seed derivation, task construction, the trial executor
(sequential and pooled, with the bounded retry loop around pool
construction), the result aggregation stage, the sweep controller and the
input harvester.  The execution-strategy engines (`Simulator`,
`DecoupledSimulator`), file loading and CSV output are external to the
core and are modelled as parameters or omitted where they have no bearing
on the verified properties.
-/

namespace DREAM

/-- MAX_SEED = 2 ** 31 - 1, the maximum number a random seed can be. -/
def MAX_SEED : Nat := 2 ^ 31 - 1

/-- State of the pseudo-random generator.  the numpy `RandomState` is external
library code; the harness relies only on it being a deterministic generator
seeded once, so it is modelled by a concrete deterministic generator (a
linear congruential step) with the same interface. -/
structure RandomState where
  state : Nat
deriving Repr, DecidableEq

/-- Construction `np.random.RandomState(random_seed)`: seed the generator. -/
def RandomState.ofSeed (seed : Nat) : RandomState :=
  ⟨seed % 2 ^ 32⟩

/-- One deterministic draw of the generator. -/
def RandomState.next (rs : RandomState) : Nat × RandomState :=
  let s := (1664525 * rs.state + 1013904223) % 2 ^ 32
  (s, ⟨s⟩)

/-- Draw `seed_gen.randint(bound)`: a number in `[0, bound)`. -/
def RandomState.randint (rs : RandomState) (bound : Nat) : Nat × RandomState :=
  let (v, rs2) := rs.next
  (v % bound, rs2)

/-- Draw `count` sub-seeds in sequence from a generator state. -/
def draw_seeds : RandomState → Nat → List Nat
  | _, 0 => []
  | rs, n + 1 =>
      let (v, rs2) := rs.randint MAX_SEED
      v :: draw_seeds rs2 n

/-- Sub-seed sequence of `multiple_simulations`:
`seed_gen = np.random.RandomState(random_seed)` followed by
`seeds = [seed_gen.randint(MAX_SEED) for i in range(count)]`. -/
def sub_seeds (random_seed : Nat) (count : Nat) : List Nat :=
  draw_seeds (RandomState.ofSeed random_seed) count

/-- Vertex of an STN; the aggregation stage only reads its owner id. -/
structure Vert where
  ownerID : Nat
deriving Repr, DecidableEq

/-- Contingent edge of an STN.  Accessing `e.sigma` raises `ValueError` in
the source when the distribution of the edge has no standard deviation; that
possibility is modelled by an `Option`. -/
structure ContEdge where
  sigma : Option ℚ
deriving Repr, DecidableEq

/-- The read-only view of an STN used by the harness: `stn.verts` values,
`stn.agents`, `len(stn.edges)`, `stn.contingent_edges` values,
`len(stn.interagent_edges)` and `stn.name`.  Edge sets other than the
contingent one are only ever counted, so they appear as cardinalities. -/
structure STN where
  name : String
  verts : List Vert
  agents : List Nat
  edge_count : Nat
  contingent_edges : List ContEdge
  interagent_edge_count : Nat
deriving Repr, DecidableEq

/-- get_agent_verts: the number of vertices owned by the provided agent. -/
def get_agent_verts (stn : STN) (agent : Nat) : Nat :=
  stn.verts.foldl (fun count v => if v.ownerID = agent then count + 1 else count) 0

/-- max_agent_verts: the maximum amount of vertices belonging to any one
agent.  `max([])` raises `ValueError` when there are no agents, modelled by
`none`. -/
def max_agent_verts (stn : STN) : Option Nat :=
  (stn.agents.map (get_agent_verts stn)).max?

/-- mean_agent_verts: `sum(counts)/len(counts)`; `none` models the
ZeroDivisionError when there are no agents. -/
def mean_agent_verts (stn : STN) : Option ℚ :=
  let counts := stn.agents.map (get_agent_verts stn)
  if counts.length = 0 then none
  else some ((counts.sum : ℚ) / (counts.length : ℚ))

/-- Accumulation of `total_sd` in `_run_stage`: the `for` loop adds
`e.sigma` for every contingent edge, and the `except ValueError: continue`
skips edges with no defined sigma. -/
def total_sd (stn : STN) : ℚ :=
  stn.contingent_edges.foldl
    (fun acc e =>
      match e.sigma with
      | some s => acc + s
      | none => acc) 0

/-- Modelled from the spec: the multiset of defined contingent-edge spreads
("mean contingent-edge uncertainty spread, skipping edges with undefined
spread").  Used only to compare the aggregation code against the wording of
the spec. -/
def spec_defined_sigmas (stn : STN) : List ℚ :=
  stn.contingent_edges.filterMap (fun e => e.sigma)

/-- Simulation options dictionary (named numeric thresholds). -/
structure SimOptions where
  ar_threshold : ℚ
  si_threshold : ℚ
  alp_threshold : ℚ
deriving Repr, DecidableEq

/-- Outcome of one trial: `(ans, reschedule_count, sent_count)` as returned
by `_multisim_thread_helper`. -/
abbrev Outcome := Bool × Nat × Nat

/-- External environment of the executor.  `sim seed stn strat opts` models
`Simulator(seed).simulate(stn, strat, sim_options=opts)` together with the
post-call counters `num_reschedules` and `num_sent_schedules`; `dsim`
models `DecoupledSimulator(seed).simulate(stn, sim_options=opts,
decouple_type=DEFAULT_DECOUPLE)` the same way.  `poolFails k` says whether
the k-th `multiprocessing.Pool` construction attempt raises
`BlockingIOError`, and `completionOrder n` is the order in which a pool of
workers happens to finish a batch of `n` tasks. -/
structure Env where
  sim : Option Nat → STN → String → SimOptions → Outcome
  dsim : Option Nat → STN → SimOptions → Outcome
  poolFails : Nat → Bool
  completionOrder : Nat → List Nat

/-- Task tuple built by `_make_simulator_tasks`: the constructed simulator
is represented by the seed it was constructed with (the constructor choice
is replayed from the strategy tag by the thread helper, exactly as the
source dispatches on `tup[2]`). -/
structure Task where
  seed : Option Nat
  stn : STN
  strat : String
  opts : SimOptions
  index : Nat

/-- Embedding of `_make_simulator_tasks` (the source name carries a leading
underscore, dropped here).  When a seed list is present, task `i` holds
`seeds[i]`; the call sites always pass a list of length `count`. -/
def make_simulator_tasks (seeds : Option (List Nat)) (stn : STN)
    (execution_strat : String) (sim_options : SimOptions) (count : Nat) :
    List Task :=
  match seeds with
  | some s =>
      (List.range count).map (fun i =>
        { seed := s[i]?, stn := stn, strat := execution_strat,
          opts := sim_options, index := i })
  | none =>
      (List.range count).map (fun i =>
        { seed := none, stn := stn, strat := execution_strat,
          opts := sim_options, index := i })

/-- Embedding of `_multisim_thread_helper`: dispatch on the strategy tag
and return `(ans, reschedule_count, sent_count)`. -/
def multisim_thread_helper (env : Env) (t : Task) : Outcome :=
  if t.strat = "da" then env.dsim t.seed t.stn t.opts
  else env.sim t.seed t.stn t.strat t.opts

/-- Retry loop around pool construction in `multiple_simulations`:
`try_count = 0; while try_count <= 3: try_count += 1; try: ...; break;
except BlockingIOError: sleep(3.0)`.  The result is the attempt number
that succeeded (or `none` when the loop exhausts its attempts and the
response stays `None`), together with the list of backoff sleeps
performed, one `3.0` per failed attempt.  The fuel argument strictly
exceeds the maximum number of loop iterations (four), so the fuel-0 base
case is never reached from `pool_try`. -/
def pool_try_fuel (fails : Nat → Bool) : Nat → Nat → Option Nat × List ℚ
  | _, 0 => (none, [])
  | try_count, fuel + 1 =>
      if try_count ≤ 3 then
        let t := try_count + 1
        if fails t then
          let r := pool_try_fuel fails t fuel
          (r.1, 3 :: r.2)
        else (some t, [])
      else (none, [])

/-- The retry loop entered with `try_count = 0`. -/
def pool_try (fails : Nat → Bool) : Option Nat × List ℚ :=
  pool_try_fuel fails 0 5

/-- Results of a pool of workers in the order the workers finish: worker
`i` (for in-range `i`) produces `(i, f tasks[i])`. -/
def completion_results (f : Task → Outcome) (tasks : List Task)
    (order : List Nat) : List (Nat × Outcome) :=
  order.filterMap (fun i => (tasks[i]?).map (fun t => (i, f t)))

/-- Semantics of `pool.map(f, tasks)`: whatever order the workers finish
in, the returned list is re-assembled index-aligned with the submitted
tasks. -/
def pool_map (f : Task → Outcome) (tasks : List Task) (order : List Nat) :
    List Outcome :=
  (List.range tasks.length).filterMap
    (fun i =>
      ((completion_results f tasks order).find? (fun p => p.1 == i)).map
        (fun p => p.2))

/-- Response dictionary of `multiple_simulations`: the three unzipped
per-trial lists. -/
structure ResponseDict where
  sample_results : List Bool
  reschedules : List Nat
  sent_schedules : List Nat
deriving Repr, DecidableEq

/-- Embedding of `multiple_simulations`.  `none` models the run dying with
an exception: when every pool-construction attempt raises
`BlockingIOError`, `response` is still `None` after the loop and the
unzipping comprehensions raise.  Printing is omitted. -/
def multiple_simulations (env : Env) (starting_stn : STN)
    (execution_strat : String) (count threads : Nat)
    (random_seed : Option Nat) (sim_options : SimOptions) :
    Option ResponseDict :=
  let tasks :=
    match random_seed with
    | some s =>
        make_simulator_tasks (some (sub_seeds s count)) starting_stn
          execution_strat sim_options count
    | none =>
        make_simulator_tasks none starting_stn execution_strat sim_options
          count
  let response : Option (List Outcome) :=
    if 1 < threads then
      match (pool_try env.poolFails).1 with
      | some _ =>
          some (pool_map (multisim_thread_helper env) tasks
            (env.completionOrder tasks.length))
      | none => none
    else
      some (tasks.map (multisim_thread_helper env))
  match response with
  | none => none
  | some r =>
      some { sample_results := r.map (fun x => x.1)
             reschedules := r.map (fun x => x.2.1)
             sent_schedules := r.map (fun x => x.2.2) }

/-- Summary record assembled by `_run_stage` (`results_dict`).  The wall
clock fields `runtime` and `timestamp` are omitted, as is nothing else. -/
structure SummaryRecord where
  execution : String
  robustness : ℚ
  threads : Nat
  random_seed : Option Nat
  samples : Nat
  stn_path : String
  stn_name : String
  ar_threshold : ℚ
  si_threshold : ℚ
  synchronous_density : ℚ
  sd_avg : ℚ
  vert_count : Nat
  agents : Nat
  mean_verts_agent : ℚ
  max_verts_agent : Nat
  contingent_density : ℚ
  reschedule_freq : ℚ
  send_freq : ℚ
deriving Repr, DecidableEq

/-- Embedding of `_run_stage` (leading underscore dropped).  Every
division of the source appears with its own zero-denominator guard, in
source order, modelling the ZeroDivisionError it would raise; the `none`
branch of `max_agent_verts` models the ValueError of `max([])`. -/
def run_stage (env : Env) (pair : String × STN) (execution : String)
    (sim_count threads : Nat) (random_seed : Option Nat)
    (sim_options : SimOptions) : Option SummaryRecord :=
  match multiple_simulations env pair.2 execution sim_count threads
      random_seed sim_options with
  | none => none
  | some response_dict =>
      let results := response_dict.sample_results
      let reschedules := response_dict.reschedules
      let sent_schedules := response_dict.sent_schedules
      if results.length = 0 then none else
      match max_agent_verts pair.2 with
      | none => none
      | some max_verts_on_agent =>
          if pair.2.agents.length = 0 then none else
          if pair.2.edge_count = 0 then none else
          if pair.2.contingent_edges.length = 0 then none else
          if reschedules.length = 0 then none else
          if sent_schedules.length = 0 then none else
          some
            { execution := execution
              robustness := (results.count true : ℚ) / (results.length : ℚ)
              threads := threads
              random_seed := random_seed
              samples := sim_count
              stn_path := pair.1
              stn_name := pair.2.name
              ar_threshold := sim_options.ar_threshold
              si_threshold := sim_options.si_threshold
              synchronous_density :=
                (pair.2.interagent_edge_count : ℚ) / (pair.2.edge_count : ℚ)
              sd_avg :=
                total_sd pair.2 / (pair.2.contingent_edges.length : ℚ)
              vert_count := pair.2.verts.length
              agents := pair.2.agents.length
              mean_verts_agent :=
                ((pair.2.verts.length : ℚ) - 1) / (pair.2.agents.length : ℚ)
              max_verts_agent := max_verts_on_agent
              contingent_density :=
                (pair.2.contingent_edges.length : ℚ) / (pair.2.edge_count : ℚ)
              reschedule_freq :=
                (reschedules.sum : ℚ) / (reschedules.length : ℚ)
              send_freq :=
                (sent_schedules.sum : ℚ) / (sent_schedules.length : ℚ) }

/-- Option settings run for one STN: with no ordering grid the base
options are used once; with a grid, `sim_options.copy()` gets
`ar_threshold` and `si_threshold` overwritten from each `(AR, SC)` pair in
order. -/
def grid_cells (base : SimOptions) :
    Option (List (ℚ × ℚ)) → List SimOptions
  | none => [base]
  | some ps =>
      ps.map (fun q => { base with ar_threshold := q.1, si_threshold := q.2 })

/-- Records produced for one `(path, stn)` pair across its option
settings; a failing stage aborts the sweep (`none`), matching the uncaught
exception in the source.  This names the body of the per-pair loop of
`across_paths`. -/
def cell_records (env : Env) (pair : String × STN) (execution : String)
    (sim_count threads : Nat) (random_seed : Option Nat) :
    List SimOptions → Option (List SummaryRecord)
  | [] => some []
  | o :: os =>
      match run_stage env pair execution sim_count threads random_seed o with
      | none => none
      | some r =>
          match cell_records env pair execution sim_count threads random_seed
              os with
          | none => none
          | some rs => some (r :: rs)

/-- Break test of the sweep loop: `if stop_index is not None: if
i >= stop_index: break`. -/
def stop_hit : Option Nat → Nat → Bool
  | some s, i => s ≤ i
  | none, _ => false

/-- The enumerated loop of `across_paths` over `stn_pairs`, carrying the
running index `i`.  `if i < start_index: continue` is checked before the
stop test, exactly as in the source. -/
def across_paths_go (env : Env) (execution : String)
    (threads sim_count : Nat) (sim_options : SimOptions)
    (random_seed : Option Nat) (ordering : Option (List (ℚ × ℚ)))
    (start : Nat) (stop : Option Nat) :
    Nat → List (String × STN) → Option (List SummaryRecord)
  | _, [] => some []
  | i, pair :: rest =>
      if i < start then
        across_paths_go env execution threads sim_count sim_options
          random_seed ordering start stop (i + 1) rest
      else if stop_hit stop i then some []
      else
        match cell_records env pair execution sim_count threads random_seed
            (grid_cells sim_options ordering) with
        | none => none
        | some recs =>
            match across_paths_go env execution threads sim_count sim_options
                random_seed ordering start stop (i + 1) rest with
            | none => none
            | some rest_records => some (recs ++ rest_records)

/-- Embedding of `across_paths`.  The initial loop that loads each path
into a `(path, stn)` pair uses the external JSON/MIT loaders, so the
function is taken at the point where `stn_pairs` is already built.  The
returned list is the stream of summary records the source hands to the
live printer and the CSV sink, in order; `none` models an uncaught
exception aborting the sweep. -/
def across_paths (env : Env) (stn_pairs : List (String × STN))
    (execution : String) (threads sim_count : Nat)
    (sim_options : SimOptions) (random_seed : Option Nat)
    (ordering : Option (List (ℚ × ℚ))) (start : Nat) (stop : Option Nat) :
    Option (List SummaryRecord) :=
  across_paths_go env execution threads sim_count sim_options random_seed
    ordering start stop 0 stn_pairs

/-- Resolved file-system object for the harvester: what
`os.path.isfile` / `os.path.isdir` / `os.listdir` report for a path.  The
`other` constructor is a path that is neither file nor directory (the
warned-and-skipped case). -/
inductive FSEntry where
  | file (name : String)
  | dir (name : String) (contents : List FSEntry)
  | other (name : String)

/-- Slash-separated basename of a path, as characters: the accumulator is
reset at every `/`. -/
def basename_chars (acc : List Char) : List Char → List Char
  | [] => acc
  | c :: cs =>
      if c = '/' then basename_chars [] cs
      else basename_chars (acc ++ [c]) cs

/-- Extension part of `os.path.splitext`: the suffix of the basename from
its last dot, except that leading dots of the basename never start an
extension. -/
def splitext_ext (p : String) : String :=
  let base := basename_chars [] p.toList
  let rest := base.dropWhile (fun c => c = '.')
  let revAfter := rest.reverse.takeWhile (fun c => c ≠ '.')
  if revAfter.length = rest.length then ""
  else String.mk ('.' :: revAfter.reverse)

mutual

/-- Body of `folder_harvest` for one resolved path.  A file is kept when
`only_json` is off or its extension is `.json`; a directory is scanned
entry by entry; anything else is warned about and skipped. -/
def harvest_path (recurse only_json : Bool) (p : String) :
    FSEntry → List String
  | .file _ =>
      if only_json then
        if splitext_ext p = ".json" then [p] else []
      else [p]
  | .dir _ contents => harvest_dir recurse only_json p contents
  | .other _ => []

/-- The `for c in contents` loop of `folder_harvest`.  A nested directory
is descended into only when `recurse` holds, and the recursive call
`folder_harvest([long_path], recurse=True)` leaves `only_json` at its
default `True`; a nested directory met with `recurse` off falls through to
the warn-and-skip branch. -/
def harvest_dir (recurse only_json : Bool) (p : String) :
    List FSEntry → List String
  | [] => []
  | c :: cs =>
      (match c with
       | .file n =>
           let long_path := p ++ "/" ++ n
           if only_json then
             if splitext_ext long_path = ".json" then [long_path] else []
           else [long_path]
       | .dir n cc =>
           if recurse then harvest_dir true true (p ++ "/" ++ n) cc else []
       | .other _ => []) ++ harvest_dir recurse only_json p cs

end

/-- Embedding of `folder_harvest`: each requested path comes with the
file-system object it resolves to, and the matches of all paths are
concatenated in order. -/
def folder_harvest (paths : List (String × FSEntry))
    (recurse only_json : Bool) : List String :=
  (paths.map (fun pe => harvest_path recurse only_json pe.1 pe.2)).flatten

/-! Concrete instances used to test the claims on small inputs. -/

/-- All-zero thresholds. -/
def opts0 : SimOptions := ⟨0, 0, 0⟩

/-- Deterministic stub engine: every trial succeeds with two reschedules
and two sent schedules; pool construction never fails; workers finish in
submission order. -/
def stubEnv : Env where
  sim := fun _ _ _ _ => (true, 2, 2)
  dsim := fun _ _ _ => (true, 2, 2)
  poolFails := fun _ => false
  completionOrder := fun n => List.range n

/-- Environment whose pool construction always raises BlockingIOError. -/
def envAllFail : Env :=
  { stubEnv with poolFails := fun _ => true }

/-- Environment whose pool workers finish in reverse submission order. -/
def envPar : Env :=
  { stubEnv with completionOrder := fun n => (List.range n).reverse }

/-- Stub engine whose reschedule counter reveals the sub-seed the
simulator was constructed with. -/
def seedRevealEnv : Env where
  sim := fun seed _ _ _ => (true, seed.getD 0, 1)
  dsim := fun seed _ _ => (true, seed.getD 0, 1)
  poolFails := fun _ => false
  completionOrder := fun n => List.range n

/-- Small STN: two vertices of one agent, one edge, one contingent edge of
spread 3. -/
def stnW : STN :=
  { name := "w", verts := [⟨0⟩, ⟨0⟩], agents := [0], edge_count := 1,
    contingent_edges := [⟨some 3⟩], interagent_edge_count := 0 }

/-- STN with one defined (4) and one undefined contingent spread. -/
def stnU : STN :=
  { name := "u", verts := [⟨0⟩, ⟨0⟩], agents := [0], edge_count := 2,
    contingent_edges := [⟨some 4⟩, ⟨none⟩], interagent_edge_count := 0 }

/-- STN whose single agent owns all three vertices, so the mean number of
vertices per agent over agents is 3 while `(len(verts) - 1)/len(agents)`
is 2. -/
def stnV : STN :=
  { name := "v", verts := [⟨0⟩, ⟨0⟩, ⟨0⟩], agents := [0], edge_count := 1,
    contingent_edges := [⟨some 1⟩], interagent_edge_count := 0 }

/-- Two-network sweep input. -/
def pairs2 : List (String × STN) :=
  [("p0", { stnW with name := "n0" }), ("p1", { stnW with name := "n1" })]

/-- Two-point ordering grid. -/
def grid2 : List (ℚ × ℚ) := [(0, 0), (1, 1)]

/-! Helper lemmas about the aggregation stage. -/

/-- Anatomy of a successful `run_stage` call: the simulation response
exists, every denominator is positive, and the record is exactly the
`results_dict` the source assembles. -/
theorem run_stage_spec (env : Env) (pair : String × STN) (execution : String)
    (sim_count threads : Nat) (random_seed : Option Nat)
    (sim_options : SimOptions) (r : SummaryRecord)
    (h : run_stage env pair execution sim_count threads random_seed
      sim_options = some r) :
    ∃ rd mv,
      multiple_simulations env pair.2 execution sim_count threads random_seed
          sim_options = some rd ∧
      max_agent_verts pair.2 = some mv ∧
      0 < rd.sample_results.length ∧ 0 < pair.2.agents.length ∧
      0 < pair.2.edge_count ∧ 0 < pair.2.contingent_edges.length ∧
      0 < rd.reschedules.length ∧ 0 < rd.sent_schedules.length ∧
      r = { execution := execution
            robustness := (rd.sample_results.count true : ℚ) /
              (rd.sample_results.length : ℚ)
            threads := threads
            random_seed := random_seed
            samples := sim_count
            stn_path := pair.1
            stn_name := pair.2.name
            ar_threshold := sim_options.ar_threshold
            si_threshold := sim_options.si_threshold
            synchronous_density :=
              (pair.2.interagent_edge_count : ℚ) / (pair.2.edge_count : ℚ)
            sd_avg := total_sd pair.2 / (pair.2.contingent_edges.length : ℚ)
            vert_count := pair.2.verts.length
            agents := pair.2.agents.length
            mean_verts_agent :=
              ((pair.2.verts.length : ℚ) - 1) / (pair.2.agents.length : ℚ)
            max_verts_agent := mv
            contingent_density :=
              (pair.2.contingent_edges.length : ℚ) / (pair.2.edge_count : ℚ)
            reschedule_freq :=
              (rd.reschedules.sum : ℚ) / (rd.reschedules.length : ℚ)
            send_freq :=
              (rd.sent_schedules.sum : ℚ) / (rd.sent_schedules.length : ℚ) } := by
  unfold run_stage at h
  cases hm : multiple_simulations env pair.2 execution sim_count threads
      random_seed sim_options with
  | none => rw [hm] at h; exact absurd h (by simp)
  | some rd =>
    rw [hm] at h
    dsimp only at h
    cases hmv : max_agent_verts pair.2 with
    | none => rw [hmv] at h; split_ifs at h
    | some mv =>
      rw [hmv] at h
      split_ifs at h with h1 h2 h3 h4 h5 h6
      refine ⟨rd, mv, rfl, rfl, ?_, ?_, ?_, ?_, ?_, ?_, ?_⟩ <;>
        first
          | omega
          | exact (Option.some.inj h).symm

/-- A zero-trial batch never produces a record: with `count = 0` the
sample lists are empty and the robustness division raises. -/
theorem run_stage_zero (env : Env) (pair : String × STN) (execution : String)
    (threads : Nat) (random_seed : Option Nat) (sim_options : SimOptions) :
    run_stage env pair execution 0 threads random_seed sim_options = none := by
  unfold run_stage multiple_simulations
  cases random_seed <;>
    by_cases ht : 1 < threads <;>
    cases hp : (pool_try env.poolFails).1 <;>
    simp [make_simulator_tasks, pool_map, ht, hp]

/-- Values of `ResponseDict` and `SummaryRecord` produced by the stub
engine on `stnW` with two trials (used as concrete check data). -/
def rdW : ResponseDict :=
  { sample_results := [true, true], reschedules := [2, 2],
    sent_schedules := [2, 2] }

/-- Summary record of the same stub batch. -/
def recW : SummaryRecord :=
  { execution := "early", robustness := 1, threads := 1,
    random_seed := some 5, samples := 2, stn_path := "p", stn_name := "w",
    ar_threshold := 0, si_threshold := 0, synchronous_density := 0,
    sd_avg := 3, vert_count := 2, agents := 1, mean_verts_agent := 1,
    max_verts_agent := 2, contingent_density := 1, reschedule_freq := 2,
    send_freq := 2 }

/-- C3: for every batch, the `robustness` field of the summary record is
the number of successful trial outcomes divided by the total number of
trials, hence lies in [0,1], equals 1 when every trial succeeds and 0 when
every trial fails; a zero-trial batch dies on the division and yields no
record. -/
theorem robustness_is_success_fraction (env : Env) (pair : String × STN)
    (execution : String) (sim_count threads : Nat)
    (random_seed : Option Nat) (sim_options : SimOptions)
    (rd : ResponseDict) (r : SummaryRecord)
    (hrd : multiple_simulations env pair.2 execution sim_count threads
      random_seed sim_options = some rd)
    (hr : run_stage env pair execution sim_count threads random_seed
      sim_options = some r) :
    r.robustness =
      (rd.sample_results.count true : ℚ) / (rd.sample_results.length : ℚ) ∧
    0 ≤ r.robustness ∧ r.robustness ≤ 1 ∧
    (rd.sample_results.count true = rd.sample_results.length →
      r.robustness = 1) ∧
    (rd.sample_results.count true = 0 → r.robustness = 0) ∧
    run_stage env pair execution 0 threads random_seed sim_options = none := by
  obtain ⟨rd2, mv, hm, hmv, hl1, _, _, _, _, _, hrec⟩ :=
    run_stage_spec env pair execution sim_count threads random_seed
      sim_options r hr
  rw [hrd] at hm
  injection hm with hm
  subst hm
  subst hrec
  have hlen : (0 : ℚ) < (rd.sample_results.length : ℚ) := by
    exact_mod_cast hl1
  refine ⟨rfl, ?_, ?_, ?_, ?_, ?_⟩
  · exact div_nonneg (by positivity) (by positivity)
  · refine (div_le_one hlen).mpr ?_
    exact_mod_cast List.count_le_length true rd.sample_results
  · intro hcount
    simp only [hcount]
    exact div_self (ne_of_gt hlen)
  · intro hcount
    simp [hcount]
  · exact run_stage_zero env pair execution threads random_seed sim_options

/-- Evaluation fact: the stub batch on `stnW` produces `rdW`. -/
theorem msim_stubEnv_eval :
    multiple_simulations stubEnv stnW "early" 2 1 (some 5) opts0 =
      some rdW := by
  decide

/-- Evaluation fact: the aggregation of the stub batch produces `recW`. -/
theorem run_stage_stubEnv_eval :
    run_stage stubEnv ("p", stnW) "early" 2 1 (some 5) opts0 = some recW := by
  unfold run_stage
  rw [show ("p", stnW).2 = stnW from rfl, msim_stubEnv_eval]
  norm_num [rdW, recW, stnW, opts0, max_agent_verts, get_agent_verts,
    total_sd, List.max?]

/-- Witness for C3 at a concrete all-success batch of two trials. -/
theorem robustness_is_success_fraction_witness :
    recW.robustness = 1 ∧ 0 ≤ recW.robustness :=
  have h := robustness_is_success_fraction stubEnv ("p", stnW) "early" 2 1
    (some 5) opts0 rdW recW msim_stubEnv_eval run_stage_stubEnv_eval
  ⟨h.2.2.2.1 (by decide), h.2.1⟩

/-- C8: the `reschedule_freq` and `send_freq` fields are the arithmetic
means of the per-trial counters; in particular a batch in which every
trial reports `reschedule_count = 2` aggregates to 2. -/
theorem frequencies_are_means (env : Env) (pair : String × STN)
    (execution : String) (sim_count threads : Nat)
    (random_seed : Option Nat) (sim_options : SimOptions)
    (rd : ResponseDict) (r : SummaryRecord)
    (hrd : multiple_simulations env pair.2 execution sim_count threads
      random_seed sim_options = some rd)
    (hr : run_stage env pair execution sim_count threads random_seed
      sim_options = some r) :
    r.reschedule_freq =
      (rd.reschedules.sum : ℚ) / (rd.reschedules.length : ℚ) ∧
    r.send_freq =
      (rd.sent_schedules.sum : ℚ) / (rd.sent_schedules.length : ℚ) ∧
    1 ≤ rd.reschedules.length ∧
    ((∀ x ∈ rd.reschedules, x = 2) → r.reschedule_freq = 2) := by
  obtain ⟨rd2, mv, hm, hmv, _, _, _, _, hl5, hl6, hrec⟩ :=
    run_stage_spec env pair execution sim_count threads random_seed
      sim_options r hr
  rw [hrd] at hm
  injection hm with hm
  subst hm
  subst hrec
  have hlen : (0 : ℚ) < (rd.reschedules.length : ℚ) := by exact_mod_cast hl5
  refine ⟨rfl, rfl, hl5, ?_⟩
  intro hall
  have hsum : rd.reschedules.sum = rd.reschedules.length * 2 := by
    have h2 := List.sum_eq_card_nsmul rd.reschedules 2 hall
    simpa [smul_eq_mul, Nat.mul_comm] using h2
  dsimp only
  rw [hsum]
  push_cast
  rw [mul_comm, mul_div_assoc, div_self (ne_of_gt hlen), mul_one]

/-- Witness for C8 at a concrete batch whose trials all report two
reschedules. -/
theorem frequencies_are_means_witness :
    recW.reschedule_freq = 2 ∧
    recW.send_freq =
      (rdW.sent_schedules.sum : ℚ) / (rdW.sent_schedules.length : ℚ) :=
  have h := frequencies_are_means stubEnv ("p", stnW) "early" 2 1 (some 5)
    opts0 rdW recW msim_stubEnv_eval run_stage_stubEnv_eval
  ⟨h.2.2.2 (by decide), h.2.1⟩

/-! Claims C6 and C7: the aggregation formulas for `sd_avg` and
`mean_verts_agent`. -/

/-- Accumulating the defined spreads is summing the filtered list. -/
theorem total_sd_foldl (l : List ContEdge) (init : ℚ) :
    l.foldl
        (fun acc e =>
          match e.sigma with
          | some s => acc + s
          | none => acc) init =
      init + (l.filterMap (fun e => e.sigma)).sum := by
  induction l generalizing init with
  | nil => simp
  | cons e es ih =>
    cases h : e.sigma with
    | none => simp [h, ih]
    | some s =>
      simp only [List.foldl_cons, List.filterMap_cons, h, ih, List.sum_cons]
      ring

/-- The `total_sd` loop computes the sum of the defined spreads. -/
theorem total_sd_eq_sum (stn : STN) :
    total_sd stn = (spec_defined_sigmas stn).sum := by
  unfold total_sd spec_defined_sigmas
  simpa using total_sd_foldl stn.contingent_edges 0

/-- Single-trial stub response. -/
def rd1 : ResponseDict :=
  { sample_results := [true], reschedules := [2], sent_schedules := [2] }

/-- Summary record of the stub batch on `stnU`. -/
def recU : SummaryRecord :=
  { execution := "early", robustness := 1, threads := 1,
    random_seed := some 1, samples := 1, stn_path := "p", stn_name := "u",
    ar_threshold := 0, si_threshold := 0, synchronous_density := 0,
    sd_avg := 2, vert_count := 2, agents := 1, mean_verts_agent := 1,
    max_verts_agent := 2, contingent_density := 1,
    reschedule_freq := 2, send_freq := 2 }

/-- Evaluation fact: single stub trial on `stnU` responds with `rd1`. -/
theorem msim_stnU_eval :
    multiple_simulations stubEnv stnU "early" 1 1 (some 1) opts0 =
      some rd1 := by
  decide

/-- Evaluation fact: the aggregation of the `stnU` batch produces
`recU`. -/
theorem run_stage_stnU_eval :
    run_stage stubEnv ("p", stnU) "early" 1 1 (some 1) opts0 = some recU := by
  unfold run_stage
  rw [show ("p", stnU).2 = stnU from rfl, msim_stnU_eval]
  norm_num [rd1, recU, stnU, opts0, max_agent_verts, get_agent_verts,
    total_sd, List.max?]

/-- C6 counterexample: `stnU` has one defined spread (4) among its two
contingent edges; the claim predicts `sd_avg = 4/1 = 4`, but the code
divides by the total number of contingent edges and produces 2. -/
theorem sd_avg_counterexample :
    (run_stage stubEnv ("p", stnU) "early" 1 1 (some 1) opts0).map
        SummaryRecord.sd_avg = some 2 ∧
    spec_defined_sigmas stnU = [4] ∧
    ((spec_defined_sigmas stnU).sum : ℚ) /
        ((spec_defined_sigmas stnU).length : ℚ) = 4 ∧
    (2 : ℚ) ≠ 4 := by
  have hs : spec_defined_sigmas stnU = [4] := by decide
  refine ⟨?_, hs, by rw [hs]; norm_num, by norm_num⟩
  rw [run_stage_stnU_eval]
  norm_num [recU]

/-- C6 amended: the `sd_avg` field equals the sum of the defined
contingent-edge spreads divided by the total number of contingent edges
(edges with undefined spread are skipped in the sum but still counted in
the denominator). -/
theorem sd_avg_sum_over_all_contingent (env : Env) (pair : String × STN)
    (execution : String) (sim_count threads : Nat)
    (random_seed : Option Nat) (sim_options : SimOptions)
    (r : SummaryRecord)
    (hr : run_stage env pair execution sim_count threads random_seed
      sim_options = some r) :
    r.sd_avg =
      (spec_defined_sigmas pair.2).sum /
        (pair.2.contingent_edges.length : ℚ) := by
  obtain ⟨rd, mv, hm, hmv, _, _, _, _, _, _, hrec⟩ :=
    run_stage_spec env pair execution sim_count threads random_seed
      sim_options r hr
  subst hrec
  dsimp only
  rw [total_sd_eq_sum]

/-- Witness for the amended C6 at the concrete `stnU` batch. -/
theorem sd_avg_sum_over_all_contingent_witness :
    recU.sd_avg =
      (spec_defined_sigmas stnU).sum /
        ((stnU.contingent_edges.length : ℚ)) :=
  sd_avg_sum_over_all_contingent stubEnv ("p", stnU) "early" 1 1 (some 1)
    opts0 recU run_stage_stnU_eval

/-- Summary record of the stub batch on `stnV`. -/
def recV : SummaryRecord :=
  { execution := "early", robustness := 1, threads := 1,
    random_seed := some 1, samples := 1, stn_path := "p", stn_name := "v",
    ar_threshold := 0, si_threshold := 0, synchronous_density := 0,
    sd_avg := 1, vert_count := 3, agents := 1, mean_verts_agent := 2,
    max_verts_agent := 3, contingent_density := 1, reschedule_freq := 2,
    send_freq := 2 }

/-- Evaluation fact: single stub trial on `stnV` responds with `rd1`. -/
theorem msim_stnV_eval :
    multiple_simulations stubEnv stnV "early" 1 1 (some 1) opts0 =
      some rd1 := by
  decide

/-- Evaluation fact: the aggregation of the `stnV` batch produces
`recV`. -/
theorem run_stage_stnV_eval :
    run_stage stubEnv ("p", stnV) "early" 1 1 (some 1) opts0 = some recV := by
  unfold run_stage
  rw [show ("p", stnV).2 = stnV from rfl, msim_stnV_eval]
  norm_num [rd1, recV, stnV, opts0, max_agent_verts, get_agent_verts,
    total_sd, List.max?]

/-- C7 counterexample: in `stnV` the single agent owns all three
vertices, so the arithmetic mean over agents of owned vertices is 3
(`mean_agent_verts`), yet the emitted `mean_verts_agent` field is
`(3 - 1)/1 = 2`. -/
theorem mean_verts_agent_counterexample :
    (run_stage stubEnv ("p", stnV) "early" 1 1 (some 1) opts0).map
        SummaryRecord.mean_verts_agent = some 2 ∧
    mean_agent_verts stnV = some 3 ∧
    (2 : ℚ) ≠ 3 := by
  refine ⟨?_, ?_, by norm_num⟩
  · rw [run_stage_stnV_eval]
    norm_num [recV]
  · norm_num [mean_agent_verts, get_agent_verts, stnV]

/-- C7 amended: the `mean_verts_agent` field equals
`(vertex_count - 1) / agent_count`, a structural quantity of the network
alone; it agrees with the mean over agents of owned vertices only when
the agents own exactly `vertex_count - 1` vertices in total. -/
theorem mean_verts_agent_formula (env : Env) (pair : String × STN)
    (execution : String) (sim_count threads : Nat)
    (random_seed : Option Nat) (sim_options : SimOptions)
    (r : SummaryRecord)
    (hr : run_stage env pair execution sim_count threads random_seed
      sim_options = some r) :
    r.mean_verts_agent =
      ((pair.2.verts.length : ℚ) - 1) / (pair.2.agents.length : ℚ) := by
  obtain ⟨rd, mv, hm, hmv, _, _, _, _, _, _, hrec⟩ :=
    run_stage_spec env pair execution sim_count threads random_seed
      sim_options r hr
  subst hrec
  rfl

/-- Witness for the amended C7 at the concrete `stnV` batch. -/
theorem mean_verts_agent_formula_witness :
    recV.mean_verts_agent =
      ((stnV.verts.length : ℚ) - 1) / (stnV.agents.length : ℚ) :=
  mean_verts_agent_formula stubEnv ("p", stnV) "early" 1 1 (some 1) opts0
    recV run_stage_stnV_eval

/-! Claim C1: the bounded retry loop around pool construction. -/

/-- Full case evaluation of the retry loop over the four possible
construction attempts. -/
theorem pool_try_eval (fails : Nat → Bool) :
    pool_try fails =
      if fails 1 then
        if fails 2 then
          if fails 3 then
            if fails 4 then (none, [3, 3, 3, 3])
            else (some 4, [3, 3, 3])
          else (some 3, [3, 3])
        else (some 2, [3])
      else (some 1, []) := by
  cases h1 : fails 1 <;> cases h2 : fails 2 <;> cases h3 : fails 3 <;>
    cases h4 : fails 4 <;>
    simp [pool_try, pool_try_fuel, h1, h2, h3, h4]

/-- With more than one worker and no successful pool construction, the
batch dies: the `None` response makes the unzip comprehensions raise. -/
theorem msim_pool_none (env : Env) (stn : STN) (strat : String)
    (count threads : Nat) (seed : Option Nat) (opts : SimOptions)
    (hth : 1 < threads) (hp : (pool_try env.poolFails).1 = none) :
    multiple_simulations env stn strat count threads seed opts = none := by
  unfold multiple_simulations
  cases seed <;> simp [hth, hp]

/-- With more than one worker and a successful construction attempt, the
batch completes and outcomes are returned. -/
theorem msim_pool_isSome (env : Env) (stn : STN) (strat : String)
    (count threads : Nat) (seed : Option Nat) (opts : SimOptions)
    (hth : 1 < threads) (hp : (pool_try env.poolFails).1.isSome = true) :
    (multiple_simulations env stn strat count threads seed opts).isSome =
      true := by
  unfold multiple_simulations
  obtain ⟨t, ht⟩ := Option.isSome_iff_exists.mp hp
  cases seed <;> simp [hth, ht]

/-- C1: with worker count above one, pool construction is retried on
`BlockingIOError` at most three additional times (at most four attempts:
a successful attempt number never exceeds 4 and is preceded by one
3-second backoff per earlier failure); a factory failing twice then
succeeding completes the batch, and if every attempt fails the run dies
with no outcomes after four backoffs. -/
theorem pool_construction_retry (env : Env) (stn : STN) (strat : String)
    (count threads : Nat) (seed : Option Nat) (opts : SimOptions)
    (hth : 1 < threads) :
    ((∀ k, env.poolFails k = true) →
      multiple_simulations env stn strat count threads seed opts = none ∧
      (pool_try env.poolFails).2 = [3, 3, 3, 3]) ∧
    (∀ t, (pool_try env.poolFails).1 = some t →
      t ≤ 4 ∧ (pool_try env.poolFails).2.length = t - 1) ∧
    (∀ q ∈ (pool_try env.poolFails).2, q = 3) ∧
    (pool_try env.poolFails).2.length ≤ 4 ∧
    ((env.poolFails 1 = true ∧ env.poolFails 2 = true ∧
        env.poolFails 3 = false) →
      (pool_try env.poolFails).1 = some 3 ∧
      (multiple_simulations env stn strat count threads seed
          opts).isSome = true) ∧
    ((pool_try env.poolFails).1 = none →
      multiple_simulations env stn strat count threads seed opts = none) := by
  have he := pool_try_eval env.poolFails
  refine ⟨?_, ?_, ?_, ?_, ?_, ?_⟩
  · intro hall
    have hp : (pool_try env.poolFails).1 = none := by
      rw [he]; simp [hall 1, hall 2, hall 3, hall 4]
    refine ⟨msim_pool_none env stn strat count threads seed opts hth hp, ?_⟩
    rw [he]; simp [hall 1, hall 2, hall 3, hall 4]
  · intro t ht
    rw [he] at ht
    rw [he]
    cases h1 : env.poolFails 1 <;> cases h2 : env.poolFails 2 <;>
      cases h3 : env.poolFails 3 <;> cases h4 : env.poolFails 4 <;>
      simp [h1, h2, h3, h4] at ht ⊢ <;> omega
  · rw [he]
    cases h1 : env.poolFails 1 <;> cases h2 : env.poolFails 2 <;>
      cases h3 : env.poolFails 3 <;> cases h4 : env.poolFails 4 <;>
      simp [h1, h2, h3, h4]
  · rw [he]
    cases h1 : env.poolFails 1 <;> cases h2 : env.poolFails 2 <;>
      cases h3 : env.poolFails 3 <;> cases h4 : env.poolFails 4 <;>
      simp [h1, h2, h3, h4]
  · rintro ⟨hf1, hf2, hf3⟩
    have hp : (pool_try env.poolFails).1 = some 3 := by
      rw [he]; simp [hf1, hf2, hf3]
    refine ⟨hp, msim_pool_isSome env stn strat count threads seed opts hth ?_⟩
    rw [hp]; rfl
  · exact msim_pool_none env stn strat count threads seed opts hth

/-- Witness for C1: a factory that always fails kills a two-worker batch
after four attempts and four 3-second backoffs, returning no outcomes. -/
theorem pool_construction_retry_witness :
    multiple_simulations envAllFail stnW "early" 1 2 (some 1) opts0 = none ∧
    (pool_try envAllFail.poolFails).2 = [3, 3, 3, 3] :=
  (pool_construction_retry envAllFail stnW "early" 1 2 (some 1) opts0
    (by decide)).1 (fun _ => rfl)

/-! Claim C5: parallel execution is outcome-equivalent to sequential
execution, index-aligned with submission order. -/

/-- Task lists always have exactly `count` entries. -/
theorem make_tasks_length (seeds : Option (List Nat)) (stn : STN)
    (strat : String) (opts : SimOptions) (count : Nat) :
    (make_simulator_tasks seeds stn strat opts count).length = count := by
  cases seeds <;> simp [make_simulator_tasks]

/-- Whatever position a completed in-range task occupies in the completion
order, looking its index up in the completion results finds its own
outcome. -/
theorem find_completion (f : Task → Outcome) (tasks : List Task)
    (order : List Nat) (i : Nat) (hi : i < tasks.length) (hmem : i ∈ order) :
    (completion_results f tasks order).find? (fun p => p.1 == i) =
      some (i, f tasks[i]) := by
  induction order with
  | nil => cases hmem
  | cons j rest ih =>
    by_cases hij : j = i
    · subst hij
      have hj : tasks[j]? = some tasks[j] := List.getElem?_eq_getElem hi
      simp [completion_results, List.filterMap_cons, hj, List.find?_cons]
    · have hmem2 : i ∈ rest := by
        rcases List.mem_cons.mp hmem with h | h
        · exact absurd h.symm hij
        · exact h
      have htail := ih hmem2
      cases hj : tasks[j]? with
      | none =>
        simpa [completion_results, List.filterMap_cons, hj] using htail
      | some t =>
        have hbeq : ((j, f t).1 == i) = false := by
          simp [hij]
        simpa [completion_results, List.filterMap_cons, hj,
          List.find?_cons, hbeq] using htail

/-- Gathering `f l[i]` over all indices in order is just mapping `f`. -/
theorem filterMap_index_eq_map {α β : Type} (l : List α) (f : α → β) :
    (List.range l.length).filterMap (fun i => (l[i]?).map f) = l.map f := by
  induction l with
  | nil => simp
  | cons a tl ih =>
    rw [List.length_cons, List.range_succ_eq_map]
    rw [List.filterMap_cons, List.filterMap_map]
    simp only [List.getElem?_cons_zero, Option.map_some, Function.comp_def,
      List.getElem?_cons_succ, List.map_cons]
    rw [ih]
    rfl

/-- Semantics of `pool.map`: for every completion order that is a
permutation of the submitted indices, the re-assembled outcome list is the
sequential map, index-aligned with submission order. -/
theorem pool_map_perm (f : Task → Outcome) (tasks : List Task)
    (order : List Nat) (h : order.Perm (List.range tasks.length)) :
    pool_map f tasks order = tasks.map f := by
  unfold pool_map
  rw [List.filterMap_congr (g := fun i => (tasks[i]?).map f), filterMap_index_eq_map]
  intro i hi
  have hilt : i < tasks.length := List.mem_range.mp hi
  have hmem : i ∈ order := h.mem_iff.mpr hi
  rw [find_completion f tasks order i hilt hmem]
  simp [List.getElem?_eq_getElem hilt]

/-- Executor-level equivalence: a pooled batch whose construction
eventually succeeds and whose workers finish in any permutation of the
submission order returns exactly the sequential response. -/
theorem msim_parallel_eq_sequential (env : Env) (stn : STN) (strat : String)
    (count threads : Nat) (seed : Option Nat) (opts : SimOptions)
    (hpool : (pool_try env.poolFails).1.isSome = true)
    (hord : (env.completionOrder count).Perm (List.range count)) :
    multiple_simulations env stn strat count threads seed opts =
      multiple_simulations env stn strat count 1 seed opts := by
  unfold multiple_simulations
  by_cases hth : 1 < threads
  · obtain ⟨t, ht⟩ := Option.isSome_iff_exists.mp hpool
    have hperm : ∀ tasks : List Task, tasks.length = count →
        pool_map (multisim_thread_helper env) tasks
          (env.completionOrder tasks.length) =
          tasks.map (multisim_thread_helper env) := by
      intro tasks hlen
      exact pool_map_perm _ tasks _ (by rw [hlen]; exact hlen ▸ hord)
    cases seed <;>
      simp [hth, ht, hperm _ (make_tasks_length _ _ _ _ _)]
  · simp [hth]

/-- C5: for every task list and deterministic engine, a parallel batch
(bounded pool, more than one worker) and a sequential batch return
identical outcome sequences, index-aligned with submission order and
independent of the completion order. -/
theorem parallel_outcomes_match_sequential (env : Env) (stn : STN)
    (strat : String) (count threads : Nat) (seed : Option Nat)
    (opts : SimOptions) (_hth : 1 < threads)
    (hpool : (pool_try env.poolFails).1.isSome = true)
    (hord : (env.completionOrder count).Perm (List.range count)) :
    multiple_simulations env stn strat count threads seed opts =
      multiple_simulations env stn strat count 1 seed opts :=
  msim_parallel_eq_sequential env stn strat count threads seed opts hpool
    hord

/-- Witness for C5: two workers finishing in reverse order still produce
the sequential outcome list. -/
theorem parallel_outcomes_match_sequential_witness :
    multiple_simulations envPar stnW "early" 2 2 (some 5) opts0 =
      multiple_simulations envPar stnW "early" 2 1 (some 5) opts0 :=
  parallel_outcomes_match_sequential envPar stnW "early" 2 2 (some 5) opts0
    (by decide) (by decide) (by decide)

/-! Claim C4: reproducibility from the root seed. -/

/-- A sequential batch reads nothing from the pool-failure pattern or the
worker completion order. -/
theorem msim_seq_ignores_pool
    (sim : Option Nat → STN → String → SimOptions → Outcome)
    (dsim : Option Nat → STN → SimOptions → Outcome)
    (pf pf2 : Nat → Bool) (co co2 : Nat → List Nat) (stn : STN)
    (strat : String) (count : Nat) (seed : Option Nat)
    (opts : SimOptions) :
    multiple_simulations ⟨sim, dsim, pf, co⟩ stn strat count 1 seed opts =
      multiple_simulations ⟨sim, dsim, pf2, co2⟩ stn strat count 1 seed
        opts := rfl

/-- C4: the per-trial sub-seed sequence is a deterministic function of the
root seed and trial count alone (task lists built from the same `(s, N)`
carry identical sub-seed sequences whatever the network, strategy or
options), and with a fixed deterministic engine the summary record of a
batch does not depend on the incidental nondeterminism of the run (the
pool-failure pattern and the worker completion order), so repeated runs
produce identical records. -/
theorem sub_seed_determinism (s N : Nat) (stn stn2 : STN)
    (strat strat2 : String) (opts opts2 : SimOptions)
    (sim : Option Nat → STN → String → SimOptions → Outcome)
    (dsim : Option Nat → STN → SimOptions → Outcome)
    (pf pf2 : Nat → Bool) (co co2 : Nat → List Nat)
    (pair : String × STN) (execution : String) (count threads : Nat)
    (seed : Option Nat) (options : SimOptions)
    (hpf : (pool_try pf).1.isSome = true)
    (hpf2 : (pool_try pf2).1.isSome = true)
    (hco : (co count).Perm (List.range count))
    (hco2 : (co2 count).Perm (List.range count)) :
    (make_simulator_tasks (some (sub_seeds s N)) stn strat opts N).map
        Task.seed =
      (make_simulator_tasks (some (sub_seeds s N)) stn2 strat2 opts2 N).map
        Task.seed ∧
    run_stage ⟨sim, dsim, pf, co⟩ pair execution count threads seed
        options =
      run_stage ⟨sim, dsim, pf2, co2⟩ pair execution count threads seed
        options := by
  constructor
  · simp [make_simulator_tasks, List.map_map, Function.comp_def]
  · unfold run_stage
    rw [msim_parallel_eq_sequential ⟨sim, dsim, pf, co⟩ pair.2 execution
        count threads seed options hpf hco,
      msim_parallel_eq_sequential ⟨sim, dsim, pf2, co2⟩ pair.2 execution
        count threads seed options hpf2 hco2,
      msim_seq_ignores_pool sim dsim pf pf2 co co2 pair.2 execution count
        seed options]

/-- Witness for C4: same root seed and count, two different networks and
strategy tags, and two runs differing in pool failures and completion
order. -/
theorem sub_seed_determinism_witness :
    (make_simulator_tasks (some (sub_seeds 5 2)) stnW "early" opts0 2).map
        Task.seed =
      (make_simulator_tasks (some (sub_seeds 5 2)) stnV "da" opts0 2).map
        Task.seed ∧
    run_stage ⟨stubEnv.sim, stubEnv.dsim, fun _ => false,
        fun n => List.range n⟩ ("p", stnW) "early" 2 2 (some 5) opts0 =
      run_stage ⟨stubEnv.sim, stubEnv.dsim, fun k => decide (k < 3),
        fun n => (List.range n).reverse⟩ ("p", stnW) "early" 2 2 (some 5)
        opts0 :=
  sub_seed_determinism 5 2 stnW stnV "early" "da" opts0 opts0 stubEnv.sim
    stubEnv.dsim (fun _ => false) (fun k => decide (k < 3))
    (fun n => List.range n) (fun n => (List.range n).reverse) ("p", stnW)
    "early" 2 2 (some 5) opts0 (by decide) (by decide) (by decide)
    (by decide)

/-! Claim C9: the harvester on a flat directory. -/

/-- With recursion off and JSON filtering on, scanning a directory keeps
exactly the entries that are files with a `.json` extension, in listing
order. -/
theorem harvest_dir_filterMap (p : String) (l : List FSEntry) :
    harvest_dir false true p l =
      l.filterMap (fun e =>
        match e with
        | FSEntry.file n =>
            if splitext_ext (p ++ "/" ++ n) = ".json"
            then some (p ++ "/" ++ n) else none
        | FSEntry.dir _ _ => none
        | FSEntry.other _ => none) := by
  induction l with
  | nil => simp [harvest_dir]
  | cons c cs ih =>
    cases c with
    | file n =>
      by_cases hn : splitext_ext (p ++ "/" ++ n) = ".json" <;>
        simp [harvest_dir, List.filterMap_cons, hn, ih]
    | dir n cc => simp [harvest_dir, List.filterMap_cons, ih]
    | other n => simp [harvest_dir, List.filterMap_cons, ih]

/-- C9: a directory whose listing holds, in any order, exactly two files
with the `.json` extension and one file with another extension is
harvested (non-recursively) to exactly the two matching paths. -/
theorem harvester_returns_matching_files (p dn n1 n2 n3 : String)
    (l : List FSEntry)
    (h1 : splitext_ext (p ++ "/" ++ n1) = ".json")
    (h2 : splitext_ext (p ++ "/" ++ n2) = ".json")
    (h3 : splitext_ext (p ++ "/" ++ n3) ≠ ".json")
    (hl : l.Perm [FSEntry.file n1, FSEntry.file n2, FSEntry.file n3]) :
    (folder_harvest [(p, FSEntry.dir dn l)] false true).Perm
      [p ++ "/" ++ n1, p ++ "/" ++ n2] := by
  have hh : folder_harvest [(p, FSEntry.dir dn l)] false true =
      harvest_dir false true p l := by
    simp [folder_harvest, harvest_path]
  rw [hh, harvest_dir_filterMap]
  have hperm := hl.filterMap (fun e =>
    match e with
    | FSEntry.file n =>
        if splitext_ext (p ++ "/" ++ n) = ".json"
        then some (p ++ "/" ++ n) else none
    | FSEntry.dir _ _ => none
    | FSEntry.other _ => none)
  simpa [h1, h2, h3] using hperm

/-- Witness for C9: a shuffled listing of `a.json`, `b.json` and `c.txt`
harvests to the two JSON paths. -/
theorem harvester_returns_matching_files_witness :
    (folder_harvest [("stns", FSEntry.dir "d"
        [FSEntry.file "c.txt", FSEntry.file "a.json",
          FSEntry.file "b.json"])] false true).Perm
      ["stns/a.json", "stns/b.json"] :=
  harvester_returns_matching_files "stns" "d" "a.json" "b.json" "c.txt"
    [FSEntry.file "c.txt", FSEntry.file "a.json", FSEntry.file "b.json"]
    (by decide) (by decide) (by decide)
    ((List.Perm.swap (FSEntry.file "a.json") (FSEntry.file "c.txt")
        [FSEntry.file "b.json"]).trans
      ((List.Perm.swap (FSEntry.file "b.json") (FSEntry.file "c.txt")
          []).cons (FSEntry.file "a.json")))

/-! Claim C10: every cell of one sweep draws the same sub-seed list. -/

/-- Length of a drawn seed sequence. -/
theorem draw_seeds_length (rs : RandomState) (n : Nat) :
    (draw_seeds rs n).length = n := by
  induction n generalizing rs with
  | zero => rfl
  | succ n ih => simp [draw_seeds, ih]

/-- A batch of `N` trials draws `N` sub-seeds. -/
theorem sub_seeds_length (s N : Nat) : (sub_seeds s N).length = N :=
  draw_seeds_length _ _

/-- Reading a list back through in-range optional indexing is the
identity. -/
theorem range_map_getElem_getD {α : Type} (l : List α) (d : α) :
    (List.range l.length).map (fun i => (l[i]?).getD d) = l := by
  induction l with
  | nil => simp
  | cons a tl ih =>
    rw [List.length_cons, List.range_succ_eq_map, List.map_cons,
      List.map_map]
    simp only [List.getElem?_cons_zero, Option.getD_some,
      Function.comp_def, List.getElem?_cons_succ]
    rw [ih]

/-- Every record of a successful option-grid pass comes from a successful
`run_stage` call on one of its option sets. -/
theorem cell_records_mem (env : Env) (pair : String × STN)
    (execution : String) (sim_count threads : Nat)
    (random_seed : Option Nat) (os : List SimOptions)
    (out : List SummaryRecord) (r : SummaryRecord)
    (h : cell_records env pair execution sim_count threads random_seed os =
      some out)
    (hr : r ∈ out) :
    ∃ o ∈ os, run_stage env pair execution sim_count threads random_seed o =
      some r := by
  induction os generalizing out with
  | nil =>
    injection h with h
    subst h
    cases hr
  | cons o os ih =>
    unfold cell_records at h
    cases hs : run_stage env pair execution sim_count threads random_seed
        o with
    | none => rw [hs] at h; exact absurd h (by simp)
    | some rec0 =>
      rw [hs] at h
      cases hrest : cell_records env pair execution sim_count threads
          random_seed os with
      | none => rw [hrest] at h; exact absurd h (by simp)
      | some rest_out =>
        rw [hrest] at h
        injection h with h
        subst h
        rcases List.mem_cons.mp hr with h0 | h0
        · exact ⟨o, List.mem_cons_self o os, by rw [hs, h0]⟩
        · obtain ⟨o2, ho2, h2⟩ := ih rest_out hrest h0
          exact ⟨o2, List.mem_cons_of_mem o ho2, h2⟩

/-- Every record of a successful sweep comes from a successful
`run_stage` call carrying the root seed of the sweep itself and trial count. -/
theorem across_paths_go_mem (env : Env) (execution : String)
    (threads sim_count : Nat) (sim_options : SimOptions)
    (random_seed : Option Nat) (ordering : Option (List (ℚ × ℚ)))
    (start : Nat) (stop : Option Nat) (i : Nat)
    (l : List (String × STN)) (out : List SummaryRecord)
    (r : SummaryRecord)
    (h : across_paths_go env execution threads sim_count sim_options
      random_seed ordering start stop i l = some out)
    (hr : r ∈ out) :
    ∃ pair o, run_stage env pair execution sim_count threads random_seed o =
      some r := by
  induction l generalizing i out with
  | nil =>
    injection h with h
    subst h
    cases hr
  | cons pair rest ih =>
    unfold across_paths_go at h
    by_cases hi : i < start
    · rw [if_pos hi] at h
      exact ih (i + 1) out h hr
    · rw [if_neg hi] at h
      by_cases hs : stop_hit stop i = true
      · rw [if_pos hs] at h
        injection h with h
        subst h
        cases hr
      · rw [if_neg hs] at h
        cases hc : cell_records env pair execution sim_count threads
            random_seed (grid_cells sim_options ordering) with
        | none => rw [hc] at h; exact absurd h (by simp)
        | some recs =>
          rw [hc] at h
          cases hrest : across_paths_go env execution threads sim_count
              sim_options random_seed ordering start stop (i + 1) rest with
          | none => rw [hrest] at h; exact absurd h (by simp)
          | some rest_out =>
            rw [hrest] at h
            injection h with h
            subst h
            rcases List.mem_append.mp hr with h0 | h0
            · obtain ⟨o, _, ho⟩ := cell_records_mem env pair execution
                sim_count threads random_seed _ recs r hc h0
              exact ⟨pair, o, ho⟩
            · exact ih (i + 1) rest_out hrest h0

/-- With the seed-revealing engine, a successful single-threaded stage
reports as its reschedule frequency the mean of the sub-seed
list of the batch. -/
theorem run_stage_seedReveal_freq (pair : String × STN)
    (execution : String) (N : Nat) (s : Nat) (o : SimOptions)
    (r : SummaryRecord)
    (hr : run_stage seedRevealEnv pair execution N 1 (some s) o = some r) :
    r.reschedule_freq = ((sub_seeds s N).sum : ℚ) / (N : ℚ) := by
  obtain ⟨rd, mv, hm, _, _, _, _, _, _, _, hrec⟩ :=
    run_stage_spec seedRevealEnv pair execution N 1 (some s) o r hr
  subst hrec
  unfold multiple_simulations at hm
  simp only [show ¬(1 < 1) from by omega, if_false] at hm
  injection hm with hm
  have hres : rd.reschedules =
      (List.range N).map (fun i => ((sub_seeds s N)[i]?).getD 0) := by
    rw [← hm]
    simp [make_simulator_tasks, multisim_thread_helper, seedRevealEnv,
      List.map_map, Function.comp_def]
  have hid : (List.range N).map (fun i => ((sub_seeds s N)[i]?).getD 0) =
      sub_seeds s N := by
    have h0 := range_map_getElem_getD (sub_seeds s N) 0
    rwa [sub_seeds_length] at h0
  have hlist : rd.reschedules = sub_seeds s N := by rw [hres, hid]
  dsimp only
  rw [hlist, sub_seeds_length s N]

/-- C10: one sweep invocation passes its root seed unchanged to every
cell, so all cells of the sweep draw the identical sub-seed list: under
the seed-revealing stub engine, every emitted record reports the same
reschedule frequency, namely the mean of `sub_seeds s N` — in particular
it is equal between any two cells of the sweep. -/
theorem sweep_cells_share_sub_seeds (pairs : List (String × STN))
    (execution : String) (N : Nat) (opts : SimOptions) (s : Nat)
    (ordering : Option (List (ℚ × ℚ))) (start : Nat) (stop : Option Nat)
    (out : List SummaryRecord) (r : SummaryRecord)
    (hout : across_paths seedRevealEnv pairs execution 1 N opts (some s)
      ordering start stop = some out)
    (hr : r ∈ out) :
    r.reschedule_freq = ((sub_seeds s N).sum : ℚ) / (N : ℚ) := by
  obtain ⟨pair, o, ho⟩ := across_paths_go_mem seedRevealEnv execution 1 N
    opts (some s) ordering start stop 0 pairs out r hout hr
  exact run_stage_seedReveal_freq pair execution N s o r ho

/-- Response of the seed-revealing engine on a two-trial batch with root
seed 5. -/
def rdSeed : ResponseDict :=
  { sample_results := [true, true],
    reschedules := [1022226848, 996800640], sent_schedules := [1, 1] }

/-- Summary record of that batch on `stnW`. -/
def recSeed : SummaryRecord :=
  { execution := "early", robustness := 1, threads := 1,
    random_seed := some 5, samples := 2, stn_path := "p", stn_name := "w",
    ar_threshold := 0, si_threshold := 0, synchronous_density := 0,
    sd_avg := 3, vert_count := 2, agents := 1, mean_verts_agent := 1,
    max_verts_agent := 2, contingent_density := 1,
    reschedule_freq := 1009513744, send_freq := 1 }

/-- Evaluation fact: the seed-revealing batch responds with `rdSeed`. -/
theorem msim_seedReveal_eval :
    multiple_simulations seedRevealEnv stnW "early" 2 1 (some 5) opts0 =
      some rdSeed := by
  decide

/-- Evaluation fact: its aggregation produces `recSeed`. -/
theorem run_stage_seedReveal_eval :
    run_stage seedRevealEnv ("p", stnW) "early" 2 1 (some 5) opts0 =
      some recSeed := by
  unfold run_stage
  rw [show ("p", stnW).2 = stnW from rfl, msim_seedReveal_eval]
  norm_num [rdSeed, recSeed, stnW, opts0, max_agent_verts, get_agent_verts,
    total_sd, List.max?]

/-- Evaluation fact: a one-network sweep under the seed-revealing engine
emits exactly `recSeed`. -/
theorem across_seedReveal_eval :
    across_paths seedRevealEnv [("p", stnW)] "early" 1 2 opts0 (some 5)
      none 0 none = some [recSeed] := by
  simp [across_paths, across_paths_go, cell_records, grid_cells, stop_hit,
    run_stage_seedReveal_eval]

/-- Witness for C10: the record of the concrete sweep reports the sub-seed
mean. -/
theorem sweep_cells_share_sub_seeds_witness :
    recSeed.reschedule_freq = ((sub_seeds 5 2).sum : ℚ) / (2 : ℚ) :=
  sweep_cells_share_sub_seeds [("p", stnW)] "early" 2 opts0 5 none 0 none
    [recSeed] recSeed across_seedReveal_eval (List.mem_singleton.mpr rfl)

/-! Claim C2: what the start/stop indices actually select. -/

/-- C2 counterexample: with two networks and a two-point ordering grid
(G = 2), the sub-sweep `start = 1`, `stop = 2` does not produce one record
(combined position 1 of the full run, which belongs to network 0); it
selects network index 1 and produces the two grid records of that network. -/
theorem resumability_counterexample :
    (across_paths stubEnv pairs2 "early" 1 1 opts0 (some 3) (some grid2) 1
        (some 2)).map List.length = some 2 ∧
    (across_paths stubEnv pairs2 "early" 1 1 opts0 (some 3) (some grid2) 1
        (some 2)).map List.length ≠ some 1 ∧
    (across_paths stubEnv pairs2 "early" 1 1 opts0 (some 3) (some grid2) 0
        none).map List.length = some 4 ∧
    (across_paths stubEnv pairs2 "early" 1 1 opts0 (some 3) (some grid2) 1
        (some 2)).map (List.map SummaryRecord.stn_name) =
      some ["n1", "n1"] ∧
    (across_paths stubEnv pairs2 "early" 1 1 opts0 (some 3) (some grid2) 0
        none).map (List.map SummaryRecord.stn_name) =
      some ["n0", "n0", "n1", "n1"] := by
  refine ⟨by decide, by decide, by decide, by decide, by decide⟩

/-- Per-network record blocks of a sweep pass (the loop of
`across_paths` before flattening into the output stream). -/
def sweep_blocks (env : Env) (execution : String) (threads sim_count : Nat)
    (sim_options : SimOptions) (random_seed : Option Nat)
    (ordering : Option (List (ℚ × ℚ))) :
    List (String × STN) → Option (List (List SummaryRecord))
  | [] => some []
  | pair :: rest =>
      match cell_records env pair execution sim_count threads random_seed
          (grid_cells sim_options ordering) with
      | none => none
      | some recs =>
          match sweep_blocks env execution threads sim_count sim_options
              random_seed ordering rest with
          | none => none
          | some bs => some (recs :: bs)

/-- A full pass (start 0, no stop) flattens the per-network blocks. -/
theorem across_go_full_blocks (env : Env) (execution : String)
    (threads sim_count : Nat) (sim_options : SimOptions)
    (random_seed : Option Nat) (ordering : Option (List (ℚ × ℚ)))
    (i : Nat) (l : List (String × STN)) :
    across_paths_go env execution threads sim_count sim_options random_seed
        ordering 0 none i l =
      (sweep_blocks env execution threads sim_count sim_options random_seed
          ordering l).map List.flatten := by
  induction l generalizing i with
  | nil => rfl
  | cons pair rest ih =>
    unfold across_paths_go sweep_blocks
    simp only [Nat.not_lt_zero, if_false, stop_hit]
    cases hc : cell_records env pair execution sim_count threads random_seed
        (grid_cells sim_options ordering) with
    | none => simp
    | some recs =>
      rw [ih (i + 1)]
      cases hb : sweep_blocks env execution threads sim_count sim_options
          random_seed ordering rest <;> simp

/-- Once the stop index is hit the loop emits nothing more. -/
theorem across_go_stop (env : Env) (execution : String)
    (threads sim_count : Nat) (sim_options : SimOptions)
    (random_seed : Option Nat) (ordering : Option (List (ℚ × ℚ)))
    (k : Nat) (l : List (String × STN)) :
    across_paths_go env execution threads sim_count sim_options random_seed
      ordering k (some (k + 1)) (k + 1) l = some [] := by
  cases l with
  | nil => rfl
  | cons pair rest =>
    unfold across_paths_go
    have h1 : ¬(k + 1 < k) := by omega
    have h2 : stop_hit (some (k + 1)) (k + 1) = true := by
      simp [stop_hit]
    simp [h1, h2]

/-- A `start = k`, `stop = k + 1` pass entered at index `i ≤ k` runs
exactly the cell loop of the network at position `k - i`. -/
theorem across_go_single (env : Env) (execution : String)
    (threads sim_count : Nat) (sim_options : SimOptions)
    (random_seed : Option Nat) (ordering : Option (List (ℚ × ℚ)))
    (k i : Nat) (l : List (String × STN)) (hik : i ≤ k)
    (hk : k - i < l.length) :
    across_paths_go env execution threads sim_count sim_options random_seed
        ordering k (some (k + 1)) i l =
      cell_records env (l.get ⟨k - i, hk⟩) execution sim_count threads
        random_seed (grid_cells sim_options ordering) := by
  induction l generalizing i with
  | nil => simp at hk
  | cons pair rest ih =>
    unfold across_paths_go
    by_cases hi : i < k
    · rw [if_pos hi]
      have hk2 : k - (i + 1) < rest.length := by
        simp only [List.length_cons] at hk
        omega
      rw [ih (i + 1) hi hk2]
      have hsub : k - i = (k - (i + 1)) + 1 := by omega
      have hget : (pair :: rest).get ⟨k - i, hk⟩ =
          rest.get ⟨k - (i + 1), hk2⟩ := by
        rw [show (⟨k - i, hk⟩ : Fin (pair :: rest).length) =
            ⟨k - (i + 1) + 1, by simp only [List.length_cons]; omega⟩ from
          Fin.ext hsub]
        rfl
      rw [hget]
    · have hieq : i = k := by omega
      subst hieq
      rw [if_neg hi]
      have hs : stop_hit (some (i + 1)) i = false := by
        simp [stop_hit]
      rw [hs]
      have hget : (pair :: rest).get ⟨i - i, hk⟩ = pair := by
        simp [Nat.sub_self]
      rw [hget]
      cases hc : cell_records env pair execution sim_count threads
          random_seed (grid_cells sim_options ordering) with
      | none => simp
      | some recs =>
        simp only []
        rw [across_go_stop]
        simp

/-- A successful cell loop produces one record per option set. -/
theorem cell_records_length (env : Env) (pair : String × STN)
    (execution : String) (sim_count threads : Nat)
    (random_seed : Option Nat) (os : List SimOptions)
    (out : List SummaryRecord)
    (h : cell_records env pair execution sim_count threads random_seed os =
      some out) :
    out.length = os.length := by
  induction os generalizing out with
  | nil =>
    injection h with h
    subst h
    rfl
  | cons o os ih =>
    unfold cell_records at h
    cases hs : run_stage env pair execution sim_count threads random_seed
        o with
    | none => rw [hs] at h; exact absurd h (by simp)
    | some rec0 =>
      rw [hs] at h
      cases hrest : cell_records env pair execution sim_count threads
          random_seed os with
      | none => rw [hrest] at h; exact absurd h (by simp)
      | some rest_out =>
        rw [hrest] at h
        injection h with h
        subst h
        simp [ih rest_out hrest]

/-- A successful sweep has one block per network. -/
theorem sweep_blocks_length (env : Env) (execution : String)
    (threads sim_count : Nat) (sim_options : SimOptions)
    (random_seed : Option Nat) (ordering : Option (List (ℚ × ℚ)))
    (l : List (String × STN)) (bs : List (List SummaryRecord))
    (h : sweep_blocks env execution threads sim_count sim_options
      random_seed ordering l = some bs) :
    bs.length = l.length := by
  induction l generalizing bs with
  | nil =>
    injection h with h
    subst h
    rfl
  | cons pair rest ih =>
    unfold sweep_blocks at h
    cases hc : cell_records env pair execution sim_count threads random_seed
        (grid_cells sim_options ordering) with
    | none => rw [hc] at h; exact absurd h (by simp)
    | some recs =>
      rw [hc] at h
      cases hb : sweep_blocks env execution threads sim_count sim_options
          random_seed ordering rest with
      | none => rw [hb] at h; exact absurd h (by simp)
      | some bs2 =>
        rw [hb] at h
        injection h with h
        subst h
        simp [ih bs2 hb]

/-- Every block of a successful sweep holds one record per grid point. -/
theorem sweep_blocks_mem_length (env : Env) (execution : String)
    (threads sim_count : Nat) (sim_options : SimOptions)
    (random_seed : Option Nat) (ordering : Option (List (ℚ × ℚ)))
    (l : List (String × STN)) (bs : List (List SummaryRecord))
    (b : List SummaryRecord)
    (h : sweep_blocks env execution threads sim_count sim_options
      random_seed ordering l = some bs)
    (hb : b ∈ bs) :
    b.length = (grid_cells sim_options ordering).length := by
  induction l generalizing bs with
  | nil =>
    injection h with h
    subst h
    cases hb
  | cons pair rest ih =>
    unfold sweep_blocks at h
    cases hc : cell_records env pair execution sim_count threads random_seed
        (grid_cells sim_options ordering) with
    | none => rw [hc] at h; exact absurd h (by simp)
    | some recs =>
      rw [hc] at h
      cases hrest : sweep_blocks env execution threads sim_count sim_options
          random_seed ordering rest with
      | none => rw [hrest] at h; exact absurd h (by simp)
      | some bs2 =>
        rw [hrest] at h
        injection h with h
        subst h
        rcases List.mem_cons.mp hb with h0 | h0
        · rw [h0]
          exact cell_records_length env pair execution sim_count threads
            random_seed _ recs hc
        · exact ih bs2 hrest h0

/-- The k-th block of a successful sweep is the cell loop of the k-th
network. -/
theorem sweep_blocks_get (env : Env) (execution : String)
    (threads sim_count : Nat) (sim_options : SimOptions)
    (random_seed : Option Nat) (ordering : Option (List (ℚ × ℚ)))
    (l : List (String × STN)) (bs : List (List SummaryRecord))
    (h : sweep_blocks env execution threads sim_count sim_options
      random_seed ordering l = some bs)
    (k : Nat) (hk : k < l.length) (hk2 : k < bs.length) :
    cell_records env (l.get ⟨k, hk⟩) execution sim_count threads random_seed
        (grid_cells sim_options ordering) = some (bs.get ⟨k, hk2⟩) := by
  induction l generalizing bs k with
  | nil => simp at hk
  | cons pair rest ih =>
    unfold sweep_blocks at h
    cases hc : cell_records env pair execution sim_count threads random_seed
        (grid_cells sim_options ordering) with
    | none => rw [hc] at h; exact absurd h (by simp)
    | some recs =>
      rw [hc] at h
      cases hrest : sweep_blocks env execution threads sim_count sim_options
          random_seed ordering rest with
      | none => rw [hrest] at h; exact absurd h (by simp)
      | some bs2 =>
        rw [hrest] at h
        injection h with h
        subst h
        cases k with
        | zero => simpa using hc
        | succ k2 =>
          have hk3 : k2 < rest.length := by
            simp only [List.length_cons] at hk
            omega
          have hk4 : k2 < bs2.length := by
            simp only [List.length_cons] at hk2
            omega
          simpa using ih bs2 hrest k2 hk3 hk4

/-- Dropping `k` uniform blocks of a flattened block list and taking one
block width extracts the k-th block. -/
theorem flatten_drop_take_block {α : Type} (bs : List (List α)) (G k : Nat)
    (hG : ∀ b ∈ bs, b.length = G) (hk : k < bs.length) :
    (bs.flatten.drop (k * G)).take G = bs.get ⟨k, hk⟩ := by
  induction bs generalizing k with
  | nil => simp at hk
  | cons b rest ih =>
    have hb : b.length = G := hG b (List.mem_cons_self b rest)
    cases k with
    | zero =>
      simp only [List.flatten_cons, Nat.zero_mul, List.drop_zero]
      rw [← hb, List.take_left]
      rfl
    | succ k2 =>
      simp only [List.flatten_cons]
      have hsum : (k2 + 1) * G = b.length + k2 * G := by
        rw [hb]
        ring
      rw [hsum, List.drop_append]
      have hk3 : k2 < rest.length := by
        simp only [List.length_cons] at hk
        omega
      have := ih k2 (fun b2 hb2 => hG b2 (List.mem_cons_of_mem b hb2)) hk3
      simpa using this

/-- C2 amended: the start and stop indices select whole networks by
network index, not combined grid cells: for every k below the network
count, a sub-sweep with `start = k`, `stop = k + 1` produces exactly the
G = grid-size records that a full run produces at combined positions
k·G .. k·G + G - 1 (so exactly the one record at combined position k when
there is no grid, G = 1). -/
theorem resumability_by_network_index (env : Env)
    (pairs : List (String × STN)) (execution : String)
    (threads sim_count : Nat) (opts : SimOptions)
    (random_seed : Option Nat) (ordering : Option (List (ℚ × ℚ)))
    (k : Nat) (full sub : List SummaryRecord)
    (hk : k < pairs.length)
    (hfull : across_paths env pairs execution threads sim_count opts
      random_seed ordering 0 none = some full)
    (hsub : across_paths env pairs execution threads sim_count opts
      random_seed ordering k (some (k + 1)) = some sub) :
    sub = (full.drop (k * (grid_cells opts ordering).length)).take
        (grid_cells opts ordering).length := by
  unfold across_paths at hfull hsub
  rw [across_go_full_blocks] at hfull
  cases hb : sweep_blocks env execution threads sim_count opts random_seed
      ordering pairs with
  | none => rw [hb] at hfull; exact absurd hfull (by simp)
  | some bs =>
    rw [hb] at hfull
    rw [show (some bs).map List.flatten = some bs.flatten from rfl] at hfull
    injection hfull with hfull
    have hk0 : k - 0 < pairs.length := by omega
    rw [across_go_single env execution threads sim_count opts random_seed
        ordering k 0 pairs (Nat.zero_le k) hk0] at hsub
    have hk2 : k < bs.length := by
      rw [sweep_blocks_length env execution threads sim_count opts
        random_seed ordering pairs bs hb]
      exact hk
    have hget := sweep_blocks_get env execution threads sim_count opts
      random_seed ordering pairs bs hb k hk hk2
    have hsub2 : sub = bs.get ⟨k, hk2⟩ := by
      have hpair : pairs.get ⟨k - 0, hk0⟩ = pairs.get ⟨k, hk⟩ := by
        congr 1
      rw [hpair] at hsub
      rw [hsub] at hget
      exact Option.some.inj hget
    rw [hsub2, ← hfull]
    exact (flatten_drop_take_block bs (grid_cells opts ordering).length k
      (fun b hbmem => sweep_blocks_mem_length env execution threads
        sim_count opts random_seed ordering pairs bs b hb hbmem) hk2).symm

/-- Evaluation fact: a one-network no-grid sweep under the stub engine
emits exactly `recW`, both as a full run and as the `start = 0`,
`stop = 1` sub-sweep. -/
theorem across_stub_eval :
    across_paths stubEnv [("p", stnW)] "early" 1 2 opts0 (some 5) none 0
        none = some [recW] ∧
    across_paths stubEnv [("p", stnW)] "early" 1 2 opts0 (some 5) none 0
        (some 1) = some [recW] := by
  constructor
  · unfold across_paths
    rw [across_go_full_blocks]
    simp [sweep_blocks, cell_records, grid_cells, run_stage_stubEnv_eval]
  · unfold across_paths
    rw [across_go_single stubEnv "early" 1 2 opts0 (some 5) none 0 0
      [("p", stnW)] (Nat.le_refl 0) (by simp)]
    simp [cell_records, grid_cells, run_stage_stubEnv_eval]

/-- Witness for the amended C2: the concrete one-network sub-sweep equals
the block the full run produces at position 0. -/
theorem resumability_by_network_index_witness :
    [recW] = (([recW] : List SummaryRecord).drop
        (0 * (grid_cells opts0 none).length)).take
      (grid_cells opts0 none).length :=
  resumability_by_network_index stubEnv [("p", stnW)] "early" 1 2 opts0
    (some 5) none 0 [recW] [recW] (by decide) across_stub_eval.1
    across_stub_eval.2

end DREAM
